import Mathlib

/-
Shallow embedding of the subnet-calculator engine (TypeScript class `Utils`,
file src/unnamed/part_000, plus the subnet-list total count from
src/src/main.ts `renderSubnetList`).

JavaScript semantics that matter and are modelled explicitly:
  * numbers are exact integers in all code paths reached here, modelled as `Nat`
    (or `Int` where a sign can appear), with `% 2^32` where JS coerces via
    `>>> 0`, `&`, `|` (ToUint32/ToInt32 reduce the value mod 2^32);
  * the shift count of `<<`, `>>>` is reduced mod 32 (ECMA-262), written
    `% 32` on the shift amount;
  * `parseInt(s, radix)` skips leading whitespace, accepts an optional sign
    (and for radix 16 an optional 0x/0X), then reads the longest digit prefix,
    returning NaN (here: `none`) only when that prefix is empty;
  * `String.prototype.split(sep)` scans left to right, non-overlapping,
    modelled by `jsSplit`; `Array.prototype.join` by `jsJoin`;
  * `Math.max(0, n - 2)` on naturals coincides with truncated `Nat` subtraction;
  * `Number.MAX_SAFE_INTEGER` is the literal 9007199254740991.
-/

namespace SubnetCalc

/-- Number.MAX_SAFE_INTEGER. -/
def maxSafeInteger : Nat := 9007199254740991

/-- Whitespace skipped by JS parseInt. -/
def jsWhitespace (c : Char) : Bool :=
  (c == ' ') || (c == '\t') || (c == '\n') || (c == '\r')

/-- Value of a string of decimal digit characters (as read by parseInt). -/
def decimalVal (ds : List Char) : Nat :=
  ds.foldl (fun a c => a * 10 + (c.toNat - 48)) 0

/-- Longest decimal-digit prefix as a number; `none` when empty (NaN). -/
def digitsVal (cs : List Char) : Option Nat :=
  let ds := cs.takeWhile Char.isDigit
  if ds.isEmpty then none else some (decimalVal ds)

/-- JS `parseInt(s, 10)`. -/
def jsParseInt10 (s : String) : Option Int :=
  match s.data.dropWhile jsWhitespace with
  | [] => none
  | c :: rest =>
    if c = '-' then (digitsVal rest).map (fun n => -(n : Int))
    else if c = '+' then (digitsVal rest).map (fun n => (n : Int))
    else (digitsVal (c :: rest)).map (fun n => (n : Int))

/-- Hexadecimal digit test, as accepted by parseInt with radix 16. -/
def isHexDigit (c : Char) : Bool :=
  c.isDigit || (('a' ≤ c) && (c ≤ 'f')) || (('A' ≤ c) && (c ≤ 'F'))

/-- Numeric value of one hexadecimal digit character. -/
def hexDigitVal (c : Char) : Nat :=
  if c.isDigit then c.toNat - 48
  else if ('a' ≤ c) && (c ≤ 'f') then c.toNat - 87
  else c.toNat - 55

/-- Value of a string of hexadecimal digit characters. -/
def hexVal (ds : List Char) : Nat :=
  ds.foldl (fun a c => a * 16 + hexDigitVal c) 0

/-- JS `parseInt(s, 16)` (optional sign, optional 0x/0X prefix). -/
def jsParseInt16 (s : String) : Option Int :=
  match s.data.dropWhile jsWhitespace with
  | [] => none
  | c :: rest =>
    let signBody : Int × List Char :=
      if c = '-' then (-1, rest)
      else if c = '+' then (1, rest)
      else (1, c :: rest)
    let body :=
      match signBody.2 with
      | '0' :: x :: t => if x = 'x' ∨ x = 'X' then t else signBody.2
      | l => l
    let ds := body.takeWhile isHexDigit
    if ds.isEmpty then none else some (signBody.1 * (hexVal ds : Int))

/-- ToUint32: the value a JS bitwise op or `>>> 0` sees, for an exact integer. -/
def jsToUint32 (x : Int) : Nat := (x.emod (2 ^ 32)).toNat

/-- JS `String.prototype.split(sep)` on character lists.
The fuel argument is initialised to the list length, which makes the
recursion structural; the `0, l` row is never reached from `jsSplit`. -/
def jsSplitAux (sep : List Char) : Nat → List Char → List (List Char)
  | _, [] => [[]]
  | 0, l => [l]
  | fuel + 1, c :: rest =>
    if sep.isPrefixOf (c :: rest) then
      [] :: jsSplitAux sep fuel (List.drop sep.length (c :: rest))
    else
      match jsSplitAux sep fuel rest with
      | [] => [[c]]
      | h :: t => (c :: h) :: t

/-- JS `s.split(sep)` for a non-empty separator. -/
def jsSplit (sep s : String) : List String :=
  (jsSplitAux sep.data s.data.length s.data).map String.mk

/-- JS `Array.prototype.join(sep)`. -/
def jsJoin (sep : String) : List String → String
  | [] => ""
  | [x] => x
  | x :: y :: t => x ++ sep ++ jsJoin sep (y :: t)

/-- JS `s.padStart(4, '0')`. -/
def padStart4 (s : String) : String :=
  if 4 ≤ s.length then s else String.mk (List.replicate (4 - s.length) '0') ++ s

/-- JS `n.toString(16).padStart(4, '0')` for a natural number. -/
def toHex4 (n : Nat) : String :=
  padStart4 (String.mk (Nat.toDigits 16 n))

/-- Mirror of the TS `SubnetInfo` interface (part_000 lines 14-28).
Optional fields are `Option`; the v6 `prefix` field is renamed `prefixStr`
because `prefix` is a Lean keyword. -/
structure SubnetInfo where
  network : String
  broadcast : Option String := none
  firstHost : Option String := none
  lastHost : Option String := none
  subnetMask : Option String := none
  wildcardMask : Option String := none
  totalHosts : Nat
  usableHosts : Nat
  cidr : Nat
  ipVersion : Nat
  networkClass : Option String := none
  isPrivate : Option Bool := none
  prefixStr : Option String := none
  deriving DecidableEq, Repr

/-- Mirror of the `{result: boolean, error?: string}` objects returned by the
containment checks. -/
structure CheckResult where
  result : Bool
  error : Option String := none
  deriving DecidableEq, Repr

/-- One octet as validated in `calculateIPv4Subnet` (part_000 lines 136-142):
`parseInt(part, 10)` followed by the NaN and [0,255] range check. -/
def jsOctet (p : String) : Option Nat :=
  match jsParseInt10 p with
  | none => none
  | some n => if n < 0 ∨ 255 < n then none else some n.toNat

/-- IPv4 address validation of `calculateIPv4Subnet` (part_000 lines 131-146):
split on '.', require 4 segments, validate each octet. -/
def parseIPv4 (ip : String) : Option (List Nat) :=
  let ipParts := jsSplit "." ip
  if ipParts.length ≠ 4 then none
  else
    let octets := ipParts.map jsOctet
    if octets.contains none then none
    else some (octets.map (fun o => o.getD 0))

/-- The 32-bit integer built from the four octets (part_000 line 149).
In JS the `<<`/`+` mix can produce a negative intermediate, but every later
use passes through a ToUint32 coercion, so the value mod 2^32 is what counts
and the octets are in [0,255], giving this sum directly. -/
def ipv4IpInt (octets : List Nat) : Nat :=
  octets.getD 0 0 * 2 ^ 24 + octets.getD 1 0 * 2 ^ 16 +
    octets.getD 2 0 * 2 ^ 8 + octets.getD 3 0

/-- Subnet mask `(0xFFFFFFFF << hostBits) >>> 0` (part_000 line 153).
The JS shift count is reduced mod 32, hence the `% 32`: for cidr = 0 the
shift by 32 acts as a shift by 0. -/
def ipv4Mask (cidr : Nat) : Nat :=
  (0xFFFFFFFF <<< ((32 - cidr) % 32)) % 2 ^ 32

/-- Network address `(ipInt & subnetMask) >>> 0` (part_000 line 154). -/
def ipv4Network (ipInt cidr : Nat) : Nat :=
  ipInt &&& ipv4Mask cidr

/-- Broadcast address `(networkInt | (0xFFFFFFFF >>> cidr)) >>> 0`
(part_000 line 155); the JS shift count is again reduced mod 32. -/
def ipv4Broadcast (networkInt cidr : Nat) : Nat :=
  networkInt ||| (0xFFFFFFFF >>> (cidr % 32))

/-- `intToIPv4` (part_000 lines 242-249): `>>>` applies ToUint32 first. -/
def intToIPv4 (n : Nat) : String :=
  let m := n % 2 ^ 32
  jsJoin "." [Nat.repr ((m >>> 24) &&& 0xFF), Nat.repr ((m >>> 16) &&& 0xFF),
    Nat.repr ((m >>> 8) &&& 0xFF), Nat.repr (m &&& 0xFF)]

/-- `isPrivateIPv4` (part_000 lines 252-260). -/
def isPrivateIPv4 (ipInt : Nat) : Bool :=
  let b0 := (ipInt % 2 ^ 32 >>> 24) &&& 0xFF
  let b1 := (ipInt % 2 ^ 32 >>> 16) &&& 0xFF
  (b0 == 10) || ((b0 == 172) && (16 ≤ b1) && (b1 ≤ 31)) || ((b0 == 192) && (b1 == 168))

/-- `calculateIPv4Subnet` (part_000 lines 125-198).  `cidr` is a `Nat`, so the
JS `cidr < 0` guard is vacuous; `Math.max(0, totalHosts - 2)` is truncated
subtraction on `Nat`. -/
def calculateIPv4Subnet (ip : String) (cidr : Nat) : Option SubnetInfo :=
  if 32 < cidr then none
  else match parseIPv4 ip with
  | none => none
  | some octets =>
    let ipInt := ipv4IpInt octets
    let hostBits := 32 - cidr
    let subnetMask := ipv4Mask cidr
    let networkInt := ipv4Network ipInt cidr
    let broadcastInt := ipv4Broadcast networkInt cidr
    let network := intToIPv4 networkInt
    let broadcast := intToIPv4 broadcastInt
    let subnetMaskStr := intToIPv4 subnetMask
    let wildcardMask := intToIPv4 (0xFFFFFFFF - subnetMask)
    let firstHost := if 1 < hostBits then intToIPv4 (networkInt + 1) else network
    let lastHost := if 1 < hostBits then intToIPv4 (broadcastInt - 1) else network
    let totalHosts := 2 ^ hostBits
    let usableHosts := totalHosts - 2
    let o0 := octets.getD 0 0
    let networkClass :=
      if 1 ≤ o0 ∧ o0 ≤ 126 then "A"
      else if 128 ≤ o0 ∧ o0 ≤ 191 then "B"
      else if 192 ≤ o0 ∧ o0 ≤ 223 then "C"
      else if 224 ≤ o0 ∧ o0 ≤ 239 then "D (Multicast)"
      else if 240 ≤ o0 ∧ o0 ≤ 255 then "E (Reserved)"
      else ""
    some { network := network, broadcast := some broadcast,
           firstHost := some firstHost, lastHost := some lastHost,
           subnetMask := some subnetMaskStr, wildcardMask := some wildcardMask,
           totalHosts := totalHosts, usableHosts := usableHosts,
           cidr := cidr, ipVersion := 4, networkClass := some networkClass,
           isPrivate := some (isPrivateIPv4 networkInt) }

/-- `expandIPv6` (part_000 lines 263-289).  `ip.includes('::')` is equivalent
to the '::'-split having at least 2 parts; a negative `missingParts` makes
`Array(missingParts)` throw, which the `catch` turns into null, modelled by
the `8 <` guard.  `parts[0] ? ... : []` treats the empty string as falsy. -/
def expandIPv6 (ip : String) : Option String :=
  let parts := jsSplit "::" ip
  if 2 ≤ parts.length then
    if 2 < parts.length then none
    else
      let leftParts := if parts.getD 0 "" = "" then [] else jsSplit ":" (parts.getD 0 "")
      let rightParts := if parts.getD 1 "" = "" then [] else jsSplit ":" (parts.getD 1 "")
      if 8 < leftParts.length + rightParts.length then none
      else
        let expandedParts :=
          leftParts ++ List.replicate (8 - (leftParts.length + rightParts.length)) "0000"
            ++ rightParts
        some (jsJoin ":" (expandedParts.map padStart4))
  else
    let parts2 := jsSplit ":" ip
    if parts2.length ≠ 8 then none
    else some (jsJoin ":" (parts2.map padStart4))

/-- `calculateIPv6Network` (part_000 lines 292-313).  The loop's
`remainingBits` after `i` full groups is `cidr - 16*i` (truncated); a NaN
from `parseInt` enters `&` as 0, modelled by `getD 0` before the ToUint32. -/
def calculateIPv6Network (expandedIP : String) (cidr : Nat) : String :=
  let parts := jsSplit ":" expandedIP
  let networkParts := (List.range 8).map (fun i =>
    let remainingBits := cidr - 16 * i
    if 16 ≤ remainingBits then parts.getD i ""
    else if 0 < remainingBits then
      let hexv := jsToUint32 ((jsParseInt16 (parts.getD i "")).getD 0)
      let mask := (0xFFFF <<< (16 - remainingBits)) &&& 0xFFFF
      toHex4 (hexv &&& mask)
    else "0000")
  jsJoin ":" networkParts

/-- Character-list prefix test modelling JS `String.prototype.startsWith`. -/
def jsStartsWith (s pre : String) : Bool :=
  pre.data.isPrefixOf s.data

/-- `isPrivateIPv6` (part_000 lines 316-324). -/
def isPrivateIPv6 (expandedIP : String) : Bool :=
  jsStartsWith expandedIP "fd" || jsStartsWith expandedIP "fc" ||
    jsStartsWith expandedIP "fe80" ||
    (expandedIP == "0000:0000:0000:0000:0000:0000:0000:0001")

/-- `calculateIPv6Subnet` (part_000 lines 201-239).  The totalHosts sentinel
for 64 or more host bits is the plain number `Number.MAX_SAFE_INTEGER`;
`usableHosts` applies `Math.max(0, totalHosts - 2)` to it unchanged. -/
def calculateIPv6Subnet (ip : String) (cidr : Nat) : Option SubnetInfo :=
  if 128 < cidr then none
  else match expandIPv6 ip with
  | none => none
  | some expandedIP =>
    let network := calculateIPv6Network expandedIP cidr
    let hostBits := 128 - cidr
    let totalHosts := if 64 ≤ hostBits then maxSafeInteger else 2 ^ hostBits
    let usableHosts := totalHosts - 2
    some { network := network, firstHost := some network, lastHost := some network,
           totalHosts := totalHosts, usableHosts := usableHosts,
           cidr := cidr, ipVersion := 6,
           isPrivate := some (isPrivateIPv6 expandedIP),
           prefixStr := some (network ++ "/" ++ Nat.repr cidr) }

/-- The network-string-to-integer conversion repeated at part_000 lines
516-518 and 589-591: split on '.', `parseInt` each part without validation
(NaN enters the shifts as 0, a missing element likewise), reassemble, and
reduce mod 2^32 as the subsequent `>>> 0` / `&` coercions do. -/
def dottedToInt (s : String) : Nat :=
  let ns := (jsSplit "." s).map (fun p => (jsParseInt10 p).getD 0)
  jsToUint32 (ns.getD 0 0 * 2 ^ 24 + ns.getD 1 0 * 2 ^ 16 + ns.getD 2 0 * 2 ^ 8 + ns.getD 3 0)

/-- Candidate cleanup in `isIPInSubnet` (part_000 line 479):
`ip.includes('/') ? ip.split('/')[0] : ip`. -/
def cleanIP (ip : String) : String :=
  if 2 ≤ (jsSplit "/" ip).length then (jsSplit "/" ip).getD 0 "" else ip

/-- `isIPv4InSubnet` (part_000 lines 492-532). -/
def isIPv4InSubnet (ip : String) (subnetInfo : SubnetInfo) : CheckResult :=
  let ipParts := jsSplit "." ip
  if ipParts.length ≠ 4 then { result := false, error := some "Invalid IPv4 address format" }
  else
    let octets := ipParts.map jsOctet
    if octets.contains none then { result := false, error := some "Invalid IPv4 address" }
    else
      let ipInt := ipv4IpInt (octets.map (fun o => o.getD 0))
      let networkInt := dottedToInt subnetInfo.network
      let subnetMask := ipv4Mask subnetInfo.cidr
      { result := (ipInt &&& subnetMask) == (networkInt &&& subnetMask) }

/-- JS strict inequality `a !== b` on two parseInt results, where `none`
stands for NaN (NaN !== anything, including NaN). -/
def jsStrictNeq (a b : Option Int) : Bool :=
  match a, b with
  | some x, some y => x != y
  | _, _ => true

/-- JS `v & mask` where `v` is a parseInt result: NaN coerces to 0. -/
def jsLandMask (v : Option Int) (mask : Nat) : Nat :=
  jsToUint32 (v.getD 0) &&& mask

/-- The group-comparison loop of `isIPv6InSubnet` (part_000 lines 550-566).
`count` is the number of groups still to visit (8 at the start, so the group
index is `8 - count`); `remaining` is `remainingBits`. -/
def ipv6CmpFrom (ipParts netParts : List (Option Int)) : Nat → Nat → Bool
  | 0, _ => true
  | count + 1, remaining =>
    let i := 8 - (count + 1)
    if 16 ≤ remaining then
      if jsStrictNeq (ipParts.getD i none) (netParts.getD i none) then false
      else ipv6CmpFrom ipParts netParts count (remaining - 16)
    else if 0 < remaining then
      let mask := (0xFFFF <<< (16 - remaining)) &&& 0xFFFF
      if jsLandMask (ipParts.getD i none) mask ≠ jsLandMask (netParts.getD i none) mask
      then false else true
    else true

/-- `isIPv6InSubnet` (part_000 lines 535-572). -/
def isIPv6InSubnet (ip : String) (subnetInfo : SubnetInfo) : CheckResult :=
  match expandIPv6 ip, expandIPv6 subnetInfo.network with
  | some expandedIP, some expandedNetwork =>
    let ipParts := (jsSplit ":" expandedIP).map (fun p => jsParseInt16 p)
    let netParts := (jsSplit ":" expandedNetwork).map (fun p => jsParseInt16 p)
    { result := ipv6CmpFrom ipParts netParts 8 subnetInfo.cidr }
  | _, _ => { result := false, error := some "Invalid IPv6 address format" }

/-- `isIPInSubnet` (part_000 lines 476-489). -/
def isIPInSubnet (ip : String) (subnetInfo : SubnetInfo) : CheckResult :=
  let clean := cleanIP ip
  if subnetInfo.ipVersion = 4 then isIPv4InSubnet clean subnetInfo
  else isIPv6InSubnet clean subnetInfo

/-- The inner carry loop of the IPv6 branch of `generateSubnetList`
(part_000 lines 617-621): `j` runs from `incrementPart` down to 0 while
`carry > 0`; each step adds `carry << (16 - bitsInPart)` to group `j`
mod 2^16 and divides the carry by `2^bitsInPart`. -/
def ipv6Inner (bits : Nat) : Nat → Nat → List Nat → List Nat
  | j, carry, parts =>
    if carry = 0 then parts
    else
      let parts2 := parts.set j ((parts.getD j 0 + (carry <<< (16 - bits))) &&& 0xFFFF)
      let carry2 := carry / 2 ^ bits
      match j with
      | 0 => parts2
      | Nat.succ j2 => ipv6Inner bits j2 carry2 parts2

/-- `generateSubnetList` (part_000 lines 575-630). -/
def generateSubnetList (originalSubnet : SubnetInfo) (newCidr : Nat) : List String :=
  if newCidr ≤ originalSubnet.cidr then []
  else
    let bitsAdded := newCidr - originalSubnet.cidr
    let numSubnets := 2 ^ bitsAdded
    let maxDisplay := min numSubnets 256
    if originalSubnet.ipVersion = 4 then
      let networkInt := dottedToInt originalSubnet.network
      let subnetSize := 2 ^ (32 - newCidr)
      (List.range maxDisplay).map (fun i =>
        intToIPv4 (networkInt + i * subnetSize) ++ "/" ++ Nat.repr newCidr)
    else
      match expandIPv6 originalSubnet.network with
      | none => []
      | some expandedNetwork =>
        let baseParts := (jsSplit ":" expandedNetwork).map
          (fun p => jsToUint32 ((jsParseInt16 p).getD 0))
        let incrementPart := (newCidr - 1) / 16
        let bitsInPart := newCidr % 16
        (List.range maxDisplay).map (fun i =>
          let newParts := ipv6Inner bitsInPart incrementPart i baseParts
          jsJoin ":" (newParts.map toHex4) ++ "/" ++ Nat.repr newCidr)

/-- The total subnet count reported by `renderSubnetList`
(src/src/main.ts lines 352-353): `Math.pow(2, newCidr - originalSubnet.cidr)`. -/
def totalSubnets (origCidr newCidr : Nat) : Nat := 2 ^ (newCidr - origCidr)

/-! Shared lemmas about the IPv4 mask arithmetic. -/

/-- For cidr in [1,32] the JS shift is in range and the mask has the top
cidr bits set. -/
lemma ipv4Mask_eq {cidr : Nat} (h1 : 1 ≤ cidr) (h2 : cidr ≤ 32) :
    ipv4Mask cidr = 2 ^ 32 - 2 ^ (32 - cidr) := by
  interval_cases cidr <;> decide

/-- For cidr in [1,31], `0xFFFFFFFF >>> cidr` is the host mask. -/
lemma ipv4HostMask_eq {cidr : Nat} (h1 : 1 ≤ cidr) (h2 : cidr ≤ 31) :
    0xFFFFFFFF >>> (cidr % 32) = 2 ^ (32 - cidr) - 1 := by
  interval_cases cidr <;> decide

/-- The mask with the top cidr bits set is the low mask shifted left. -/
lemma two_pow_sub_eq_shiftLeft {h : Nat} (hh : h ≤ 32) :
    2 ^ 32 - 2 ^ h = (2 ^ (32 - h) - 1) <<< h := by
  rw [Nat.shiftLeft_eq, Nat.sub_mul, ← pow_add, one_mul]
  congr 2
  omega

/-- The network address produced by ANDing with the prefix mask has its low
host bits cleared, for cidr in [1,32]. -/
lemma ipv4Network_mod_eq_zero (x : Nat) {cidr : Nat} (h1 : 1 ≤ cidr) (h2 : cidr ≤ 32) :
    ipv4Network x cidr % 2 ^ (32 - cidr) = 0 := by
  rw [ipv4Network, ipv4Mask_eq h1 h2, two_pow_sub_eq_shiftLeft (by omega)]
  apply Nat.eq_of_testBit_eq
  intro i
  rw [Nat.zero_testBit, Nat.testBit_mod_two_pow, Nat.testBit_and, Nat.testBit_shiftLeft]
  by_cases hi : i < 32 - cidr
  · simp [Nat.not_le.mpr hi]
  · simp [hi]

/-- For cidr in [1,31] and a network with cleared host bits, the broadcast is
network plus the all-ones host part. -/
lemma ipv4Broadcast_eq (net : Nat) {cidr : Nat} (h1 : 1 ≤ cidr) (h2 : cidr ≤ 31)
    (hmod : net % 2 ^ (32 - cidr) = 0) :
    ipv4Broadcast net cidr = net + (2 ^ (32 - cidr) - 1) := by
  rw [ipv4Broadcast, ipv4HostMask_eq h1 h2]
  obtain ⟨q, hq⟩ := Nat.dvd_of_mod_eq_zero hmod
  subst hq
  exact (Nat.mul_add_lt_is_or (Nat.sub_lt (Nat.pos_pow_of_pos _ (by omega)) (by omega)) q).symm

/-! Lemmas about parseInt on digit strings, used for the IPv4 parsing claim. -/

/-- A decimal digit character is not parseInt whitespace. -/
lemma digit_not_ws {c : Char} (h : c.isDigit = true) : jsWhitespace c = false := by
  unfold jsWhitespace
  simp only [Bool.or_eq_false_iff, beq_eq_false_iff_ne]
  refine ⟨⟨⟨?_, ?_⟩, ?_⟩, ?_⟩ <;> rintro rfl <;> exact absurd h (by decide)

/-- A decimal digit character is not the minus sign. -/
lemma digit_ne_minus {c : Char} (h : c.isDigit = true) : c ≠ '-' := by
  rintro rfl
  exact absurd h (by decide)

/-- A decimal digit character is not the plus sign. -/
lemma digit_ne_plus {c : Char} (h : c.isDigit = true) : c ≠ '+' := by
  rintro rfl
  exact absurd h (by decide)

/-- takeWhile isDigit consumes exactly an all-digit block when the suffix
does not start with a digit. -/
lemma takeWhile_digits_append (ds suffix : List Char)
    (hd : ∀ c ∈ ds, c.isDigit = true)
    (hs : ∀ c, suffix.head? = some c → c.isDigit = false) :
    (ds ++ suffix).takeWhile Char.isDigit = ds := by
  induction ds with
  | nil =>
    cases suffix with
    | nil => rfl
    | cons c t => simp [List.takeWhile_cons, hs c rfl]
  | cons a t ih =>
    have ha : a.isDigit = true := hd a (List.mem_cons_self a t)
    simp only [List.cons_append, List.takeWhile_cons, ha, if_true]
    rw [ih (fun c hc => hd c (List.mem_cons_of_mem a hc))]

/-- parseInt base 10 on a digit block followed by a non-digit suffix reads
exactly the block. -/
lemma jsParseInt10_digits (ds suffix : List Char) (hne : ds ≠ [])
    (hd : ∀ c ∈ ds, c.isDigit = true)
    (hs : ∀ c, suffix.head? = some c → c.isDigit = false) :
    jsParseInt10 (String.mk (ds ++ suffix)) = some ((decimalVal ds : Nat) : Int) := by
  obtain ⟨c, t, rfl⟩ := List.exists_cons_of_ne_nil hne
  have hc : c.isDigit = true := hd c (List.mem_cons_self c t)
  have hdrop : (String.mk ((c :: t) ++ suffix)).data.dropWhile jsWhitespace =
      c :: (t ++ suffix) := by
    show ((c :: t) ++ suffix).dropWhile jsWhitespace = _
    simp [List.dropWhile_cons, digit_not_ws hc]
  have htake : (c :: (t ++ suffix)).takeWhile Char.isDigit = c :: t := by
    rw [← List.cons_append]
    exact takeWhile_digits_append (c :: t) suffix hd hs
  simp only [jsParseInt10, hdrop, if_neg (digit_ne_minus hc), if_neg (digit_ne_plus hc),
    digitsVal, htake]
  simp

/-! Claim theorems. -/

/-- C4: for every valid IPv4 calculation, when hostBits = 32 - cidr exceeds 1
the first host is network + 1 and the last host is broadcast - 1; when
hostBits is at most 1 (cidr 31 or 32) both equal the network address; and for
cidr in [1,30] the difference lastHost - firstHost equals totalHosts - 3. -/
theorem c4_first_last_host (ip : String) (cidr : Nat) (octets : List Nat)
    (hp : parseIPv4 ip = some octets) (hc : cidr ≤ 32) :
    ∃ info, calculateIPv4Subnet ip cidr = some info ∧
      (1 < 32 - cidr →
        info.firstHost = some (intToIPv4 (ipv4Network (ipv4IpInt octets) cidr + 1)) ∧
        info.lastHost =
          some (intToIPv4 (ipv4Broadcast (ipv4Network (ipv4IpInt octets) cidr) cidr - 1))) ∧
      (32 - cidr ≤ 1 →
        info.firstHost = some (intToIPv4 (ipv4Network (ipv4IpInt octets) cidr)) ∧
        info.lastHost = some (intToIPv4 (ipv4Network (ipv4IpInt octets) cidr)) ∧
        info.network = intToIPv4 (ipv4Network (ipv4IpInt octets) cidr)) ∧
      (1 ≤ cidr → cidr ≤ 30 →
        (ipv4Broadcast (ipv4Network (ipv4IpInt octets) cidr) cidr - 1) -
            (ipv4Network (ipv4IpInt octets) cidr + 1) = info.totalHosts - 3 ∧
        info.totalHosts = 2 ^ (32 - cidr)) := by
  have hnc : ¬ 32 < cidr := Nat.not_lt.mpr hc
  simp only [calculateIPv4Subnet, if_neg hnc, hp]
  refine ⟨_, rfl, ?_, ?_, ?_⟩
  · intro h
    rw [if_pos h, if_pos h]
    exact ⟨rfl, rfl⟩
  · intro h
    have hnot : ¬ 1 < 32 - cidr := Nat.not_lt.mpr h
    rw [if_neg hnot, if_neg hnot]
    exact ⟨rfl, rfl, rfl⟩
  · intro h1 h30
    refine ⟨?_, rfl⟩
    have hbc := ipv4Broadcast_eq (ipv4Network (ipv4IpInt octets) cidr) h1 (by omega)
      (ipv4Network_mod_eq_zero (ipv4IpInt octets) h1 hc)
    have hT : 4 ≤ 2 ^ (32 - cidr) := by
      calc (4 : Nat) = 2 ^ 2 := by norm_num
      _ ≤ 2 ^ (32 - cidr) := Nat.pow_le_pow_right (by omega) (by omega)
    rw [hbc]
    show _ = 2 ^ (32 - cidr) - 3
    omega

/-- C4 witness: the theorem applied to 10.0.0.0/24. -/
theorem c4_first_last_host_witness :
    ∃ info, calculateIPv4Subnet "10.0.0.0" 24 = some info ∧
      (1 < 32 - 24 →
        info.firstHost = some (intToIPv4 (ipv4Network (ipv4IpInt [10, 0, 0, 0]) 24 + 1)) ∧
        info.lastHost =
          some (intToIPv4 (ipv4Broadcast (ipv4Network (ipv4IpInt [10, 0, 0, 0]) 24) 24 - 1))) ∧
      (32 - 24 ≤ 1 →
        info.firstHost = some (intToIPv4 (ipv4Network (ipv4IpInt [10, 0, 0, 0]) 24)) ∧
        info.lastHost = some (intToIPv4 (ipv4Network (ipv4IpInt [10, 0, 0, 0]) 24)) ∧
        info.network = intToIPv4 (ipv4Network (ipv4IpInt [10, 0, 0, 0]) 24)) ∧
      (1 ≤ 24 → 24 ≤ 30 →
        (ipv4Broadcast (ipv4Network (ipv4IpInt [10, 0, 0, 0]) 24) 24 - 1) -
            (ipv4Network (ipv4IpInt [10, 0, 0, 0]) 24 + 1) = info.totalHosts - 3 ∧
        info.totalHosts = 2 ^ (32 - 24)) :=
  c4_first_last_host "10.0.0.0" 24 [10, 0, 0, 0] (by decide) (by decide)

/-- C5 (amended): IPv4 parsing requires exactly 4 dot-separated segments;
each segment is read with parseInt semantics, so a segment consisting of
digits with value in [0,255] parses to that value even when followed by
trailing non-digit garbage (the garbage is ignored, not rejected); parsing
fails on a wrong segment count, on any segment parseInt rejects or whose
value is outside [0,255], and in particular on any all-digit segment whose
value exceeds 255. -/
theorem c5_parse_characterization :
    (∀ ip : String, (jsSplit "." ip).length ≠ 4 → parseIPv4 ip = none) ∧
    (∀ (ip p1 p2 p3 p4 : String) (v1 v2 v3 v4 : Nat),
      jsSplit "." ip = [p1, p2, p3, p4] →
      jsOctet p1 = some v1 → jsOctet p2 = some v2 →
      jsOctet p3 = some v3 → jsOctet p4 = some v4 →
      parseIPv4 ip = some [v1, v2, v3, v4]) ∧
    (∀ (ip p1 p2 p3 p4 : String), jsSplit "." ip = [p1, p2, p3, p4] →
      (jsOctet p1 = none ∨ jsOctet p2 = none ∨ jsOctet p3 = none ∨ jsOctet p4 = none) →
      parseIPv4 ip = none) ∧
    (∀ (ds suffix : List Char), ds ≠ [] → (∀ c ∈ ds, c.isDigit = true) →
      (∀ c, suffix.head? = some c → c.isDigit = false) → decimalVal ds ≤ 255 →
      jsOctet (String.mk (ds ++ suffix)) = some (decimalVal ds)) ∧
    (∀ ds : List Char, ds ≠ [] → (∀ c ∈ ds, c.isDigit = true) →
      255 < decimalVal ds → jsOctet (String.mk ds) = none) := by
  refine ⟨?_, ?_, ?_, ?_, ?_⟩
  · intro ip hlen
    simp only [parseIPv4, if_pos hlen]
  · intro ip p1 p2 p3 p4 v1 v2 v3 v4 hsplit h1 h2 h3 h4
    simp only [parseIPv4, hsplit, List.map_cons, List.map_nil, h1, h2, h3, h4]
    simp [List.contains_cons]
  · intro ip p1 p2 p3 p4 hsplit hnone
    simp only [parseIPv4, hsplit, List.map_cons, List.map_nil]
    rcases hnone with h | h | h | h <;>
      simp [List.contains_cons, h]
  · intro ds suffix hne hd hs hle
    rw [jsOctet, jsParseInt10_digits ds suffix hne hd hs]
    show (if ((decimalVal ds : Nat) : Int) < 0 ∨ 255 < ((decimalVal ds : Nat) : Int) then
        (none : Option Nat) else some ((decimalVal ds : Nat) : Int).toNat) =
      some (decimalVal ds)
    rw [if_neg]
    · simp
    · push_neg
      constructor
      · exact Int.natCast_nonneg _
      · exact_mod_cast hle
  · intro ds hne hd hgt
    have h0 : jsParseInt10 (String.mk ds) = some ((decimalVal ds : Nat) : Int) := by
      have h1 := jsParseInt10_digits ds [] hne hd (by intro c hc; cases hc)
      rwa [List.append_nil] at h1
    rw [jsOctet, h0]
    show (if ((decimalVal ds : Nat) : Int) < 0 ∨ 255 < ((decimalVal ds : Nat) : Int) then
        (none : Option Nat) else some ((decimalVal ds : Nat) : Int).toNat) = none
    rw [if_pos]
    right
    exact_mod_cast hgt

/-- C5 witness: the theorem's positive clause applied to 10.0.0.1, and its
leniency clause applied to the digit block "25" followed by "x". -/
theorem c5_parse_characterization_witness :
    parseIPv4 "10.0.0.1" = some [10, 0, 0, 1] ∧
    jsOctet (String.mk (['2', '5'] ++ ['x'])) = some (decimalVal ['2', '5']) :=
  ⟨c5_parse_characterization.2.1 "10.0.0.1" "10" "0" "0" "1" 10 0 0 1
      (by decide) (by decide) (by decide) (by decide) (by decide),
   c5_parse_characterization.2.2.2.1 ['2', '5'] ['x'] (by decide) (by decide)
      (by decide) (by decide)⟩

/-- C1: the claim says a /0 calculation must return network 0.0.0.0 (all bits
beyond cidr cleared).  The code evaluates `0xFFFFFFFF << 32` whose JS shift
count is reduced mod 32, so the /0 mask is all-ones and the network keeps the
input address: 192.168.1.5/0 yields network 192.168.1.5 (while the broadcast
is still 255.255.255.255). -/
theorem c1_zero_cidr_network_not_cleared :
    (calculateIPv4Subnet "192.168.1.5" 0).map (fun i => (i.network, i.broadcast)) =
      some ("192.168.1.5", some "255.255.255.255") ∧
    ipv4Mask 0 = 0xFFFFFFFF := by
  constructor
  · decide
  · decide

/-- C2: the claim says the containment check on a /0 prefix accepts every
address.  Because the /0 mask computed with the mod-32 JS shift is all-ones,
the check compares full addresses, and 0.0.0.1 is reported outside
0.0.0.0/0. -/
theorem c2_zero_cidr_containment_false :
    (calculateIPv4Subnet "0.0.0.0" 0).map (fun i => isIPInSubnet "0.0.0.1" i) =
      some { result := false } := by
  decide

/-- C8: the claim says IPv6 subnet enumeration yields pairwise distinct
children in increasing order, the i-th being network + i * 2^(128-newCidr).
For a newCidr that is a multiple of 16 the code's per-group increment is
`carry << 16` truncated by `& 0xFFFF` to zero and the carry never shrinks, so
enumerating 2001:db8::/60 at /64 returns the same network 16 times. -/
theorem c8_ipv6_enumeration_repeats :
    generateSubnetList
      { network := "2001:0db8:0000:0000:0000:0000:0000:0000",
        totalHosts := 9007199254740991, usableHosts := 9007199254740989,
        cidr := 60, ipVersion := 6 } 64 =
      List.replicate 16 "2001:0db8:0000:0000:0000:0000:0000:0000/64" := by
  decide

/-- C5 counterexample: the claim says an octet with trailing non-digit
characters is rejected, but `parseInt` ignores the trailing garbage:
"1.2.3.4x" parses as 1.2.3.4 and the calculation succeeds. -/
theorem c5_trailing_garbage_accepted :
    parseIPv4 "1.2.3.4x" = some [1, 2, 3, 4] ∧
    (calculateIPv4Subnet "1.2.3.4x" 24).map (fun i => i.network) = some "1.2.3.0" := by
  constructor
  · decide
  · decide

/-- C6 counterexample: the claim says a group that is not valid 1-4 digit hex
makes parsing fail, but `expandIPv6` never validates groups: "zzzz::1"
expands successfully and the /64 calculation even keeps the "zzzz" group in
the network address. -/
theorem c6_invalid_hex_accepted :
    expandIPv6 "zzzz::1" = some "zzzz:0000:0000:0000:0000:0000:0000:0001" ∧
    (calculateIPv6Subnet "zzzz::1" 64).map (fun i => i.network) =
      some "zzzz:0000:0000:0000:0000:0000:0000:0000" := by
  constructor
  · decide
  · decide

/-- C7 counterexample: the claim says the too-large sentinel is a
distinguished tagged value rather than an ordinary count, but the code stores
the plain number MAX_SAFE_INTEGER and applies ordinary subtraction to it:
for ::/0 the usable-host count is the sentinel minus two. -/
theorem c7_sentinel_ordinary_number :
    (calculateIPv6Subnet "::" 0).map (fun i => (i.totalHosts, i.usableHosts)) =
      some (9007199254740991, 9007199254740989) := by
  decide

/-- C9 counterexample: the claim says a version-mismatched candidate gets a
VersionMismatch error distinct from the generic malformed-address error, but
an IPv6 candidate against an IPv4 network produces exactly the same generic
"Invalid IPv4 address format" error as outright garbage does. -/
theorem c9_no_distinct_mismatch_error :
    isIPInSubnet "2001:db8::1"
      { network := "192.168.1.0", totalHosts := 256, usableHosts := 254,
        cidr := 24, ipVersion := 4 } =
      { result := false, error := some "Invalid IPv4 address format" } ∧
    isIPInSubnet "not-an-address"
      { network := "192.168.1.0", totalHosts := 256, usableHosts := 254,
        cidr := 24, ipVersion := 4 } =
      { result := false, error := some "Invalid IPv4 address format" } := by
  constructor
  · decide
  · decide

/-- C6 (amended): IPv6 expansion fails when more than one '::' appears (the
'::'-split has more than 2 parts) and when an input without '::' does not
have exactly 8 colon groups; an input with one '::' fails when the explicit
groups already exceed 8 (the negative missing-count makes the JS Array
constructor throw), and otherwise expands by inserting 8 - left - right zero
groups at the '::' position; groups are never validated as hexadecimal. -/
theorem c6_expand_characterization (ip : String) :
    (2 < (jsSplit "::" ip).length → expandIPv6 ip = none) ∧
    ((jsSplit "::" ip).length = 1 → (jsSplit ":" ip).length ≠ 8 → expandIPv6 ip = none) ∧
    (∀ l r : String, jsSplit "::" ip = [l, r] →
      (8 < (if l = "" then [] else jsSplit ":" l).length +
          (if r = "" then [] else jsSplit ":" r).length →
        expandIPv6 ip = none) ∧
      ((if l = "" then [] else jsSplit ":" l).length +
          (if r = "" then [] else jsSplit ":" r).length ≤ 8 →
        expandIPv6 ip = some (jsJoin ":" (((if l = "" then [] else jsSplit ":" l) ++
          List.replicate (8 - ((if l = "" then [] else jsSplit ":" l).length +
            (if r = "" then [] else jsSplit ":" r).length)) "0000" ++
          (if r = "" then [] else jsSplit ":" r)).map padStart4)))) := by
  refine ⟨?_, ?_, ?_⟩
  · intro h
    simp only [expandIPv6, if_pos (by omega : 2 ≤ (jsSplit "::" ip).length), if_pos h]
  · intro h1 h8
    have hn : ¬ 2 ≤ (jsSplit "::" ip).length := by omega
    simp only [expandIPv6, if_neg hn, if_pos h8]
  · intro l r hsplit
    have hlen : (jsSplit "::" ip).length = 2 := by rw [hsplit]; rfl
    have h2le : 2 ≤ (jsSplit "::" ip).length := by omega
    have h2lt : ¬ 2 < (jsSplit "::" ip).length := by omega
    have e0 : (jsSplit "::" ip).getD 0 "" = l := by rw [hsplit]; rfl
    have e1 : (jsSplit "::" ip).getD 1 "" = r := by rw [hsplit]; rfl
    constructor
    · intro hgt
      simp only [expandIPv6, if_pos h2le, if_neg h2lt, e0, e1, if_pos hgt]
    · intro hle
      have hn8 : ¬ 8 < (if l = "" then [] else jsSplit ":" l).length +
          (if r = "" then [] else jsSplit ":" r).length := by omega
      simp only [expandIPv6, if_pos h2le, if_neg h2lt, e0, e1, if_neg hn8]

/-- C6 witness: the theorem's expansion clause applied to "1::2". -/
theorem c6_expand_characterization_witness :
    expandIPv6 "1::2" = some "0001:0000:0000:0000:0000:0000:0000:0002" := by
  have h := ((c6_expand_characterization "1::2").2.2 "1" "2" (by decide)).2 (by decide)
  rw [h]
  decide

/-- C7 (amended): for every IPv6 input that expands successfully and cidr at
most 128, the reported total is the sentinel number MAX_SAFE_INTEGER when
hostBits = 128 - cidr is at least 64 and exactly 2^hostBits otherwise; the
sentinel value never collides with an exact count 2^h for h < 64, but it is a
plain number, not a tagged value. -/
theorem c7_total_hosts_sentinel (ip : String) (cidr : Nat) (e : String)
    (he : expandIPv6 ip = some e) (hc : cidr ≤ 128) :
    (∃ info, calculateIPv6Subnet ip cidr = some info ∧
      info.totalHosts =
        if 64 ≤ 128 - cidr then maxSafeInteger else 2 ^ (128 - cidr)) ∧
    (∀ h : Nat, h < 64 → 2 ^ h ≠ maxSafeInteger) := by
  constructor
  · have hnc : ¬ 128 < cidr := Nat.not_lt.mpr hc
    simp only [calculateIPv6Subnet, if_neg hnc, he]
    exact ⟨_, rfl, rfl⟩
  · decide

/-- C7 witness: the theorem applied to ::/100, an exact-count case. -/
theorem c7_total_hosts_sentinel_witness :
    (∃ info, calculateIPv6Subnet "::" 100 = some info ∧
      info.totalHosts =
        if 64 ≤ 128 - 100 then maxSafeInteger else 2 ^ (128 - 100)) ∧
    (∀ h : Nat, h < 64 → 2 ^ h ≠ maxSafeInteger) :=
  c7_total_hosts_sentinel "::" 100 "0000:0000:0000:0000:0000:0000:0000:0000"
    (by decide) (by decide)

/-- C9 (amended): a version-mismatched candidate is rejected with result
false and the generic invalid-format error of the network's version — the
same error any malformed candidate receives; no distinct VersionMismatch
error exists.  Stated generally: against an IPv4 network, any candidate that
does not split into 4 dot-parts (as every IPv6 literal does not) gets the
generic "Invalid IPv4 address format"; against an IPv6 network, any candidate
that fails IPv6 expansion (as every IPv4 literal does) gets the generic
"Invalid IPv6 address format". -/
theorem c9_mismatch_generic_error (s : String) (info : SubnetInfo) :
    (info.ipVersion = 4 → (jsSplit "." (cleanIP s)).length ≠ 4 →
      isIPInSubnet s info =
        { result := false, error := some "Invalid IPv4 address format" }) ∧
    (info.ipVersion ≠ 4 → expandIPv6 (cleanIP s) = none →
      isIPInSubnet s info =
        { result := false, error := some "Invalid IPv6 address format" }) := by
  constructor
  · intro h4 hlen
    simp only [isIPInSubnet, if_pos h4, isIPv4InSubnet, if_pos hlen]
  · intro h6 hexp
    simp only [isIPInSubnet, if_neg h6, isIPv6InSubnet, hexp]

/-- C9 witness: the theorem applied to an IPv6 candidate against an IPv4
network. -/
theorem c9_mismatch_generic_error_witness :
    isIPInSubnet "2001:db8::1"
      { network := "10.0.0.0", totalHosts := 16777216, usableHosts := 16777214,
        cidr := 8, ipVersion := 4 } =
      { result := false, error := some "Invalid IPv4 address format" } :=
  (c9_mismatch_generic_error "2001:db8::1"
    { network := "10.0.0.0", totalHosts := 16777216, usableHosts := 16777214,
      cidr := 8, ipVersion := 4 }).1 rfl (by decide)

/-- C10: for every IPv6 input that expands successfully with cidr at most 64
(so hostBits is at least 64 and the total is the too-large sentinel), the
usable host count is the sentinel minus 2, the plain number
MAX_SAFE_INTEGER - 2 = 9007199254740989: ordinary subtraction is applied to
the sentinel itself. -/
theorem c10_usable_hosts_sentinel_minus_two (ip : String) (cidr : Nat) (e : String)
    (he : expandIPv6 ip = some e) (hc : cidr ≤ 64) :
    ∃ info, calculateIPv6Subnet ip cidr = some info ∧
      info.totalHosts = maxSafeInteger ∧
      info.usableHosts = maxSafeInteger - 2 ∧
      info.usableHosts = 9007199254740989 := by
  have hnc : ¬ 128 < cidr := by omega
  have h64 : 64 ≤ 128 - cidr := by omega
  simp only [calculateIPv6Subnet, if_neg hnc, he, if_pos h64]
  exact ⟨_, rfl, rfl, rfl, (by decide : maxSafeInteger - 2 = 9007199254740989)⟩

/-- C10 witness: the theorem applied to 2001:db8::/64. -/
theorem c10_usable_hosts_sentinel_minus_two_witness :
    ∃ info, calculateIPv6Subnet "2001:db8::" 64 = some info ∧
      info.totalHosts = maxSafeInteger ∧
      info.usableHosts = maxSafeInteger - 2 ∧
      info.usableHosts = 9007199254740989 :=
  c10_usable_hosts_sentinel_minus_two "2001:db8::" 64
    "2001:0db8:0000:0000:0000:0000:0000:0000" (by decide) (by decide)

/-- C3: for every IPv4 prefix (aligned network N, length origCidr) and every
newCidr with origCidr < newCidr at most 32, the enumeration returns exactly
min(2^(newCidr-origCidr), 256) entries, the i-th being the dotted form of
N + i * 2^(32-newCidr) with suffix /newCidr; the addresses stay below 2^32
(no wraparound) and are strictly increasing, and the reported total count is
2^(newCidr-origCidr). -/
theorem c3_ipv4_enumeration (info : SubnetInfo) (newCidr N : Nat)
    (hv : info.ipVersion = 4) (hN : dottedToInt info.network = N)
    (hN32 : N < 2 ^ 32) (halign : N % 2 ^ (32 - info.cidr) = 0)
    (hlt : info.cidr < newCidr) (hle : newCidr ≤ 32) :
    (generateSubnetList info newCidr).length = min (2 ^ (newCidr - info.cidr)) 256 ∧
    (∀ i < (generateSubnetList info newCidr).length,
      (generateSubnetList info newCidr).get? i =
        some (intToIPv4 (N + i * 2 ^ (32 - newCidr)) ++ "/" ++ Nat.repr newCidr)) ∧
    (∀ i < (generateSubnetList info newCidr).length,
      N + i * 2 ^ (32 - newCidr) < 2 ^ 32) ∧
    (∀ i j, i < j → j < (generateSubnetList info newCidr).length →
      N + i * 2 ^ (32 - newCidr) < N + j * 2 ^ (32 - newCidr)) ∧
    totalSubnets info.cidr newCidr = 2 ^ (newCidr - info.cidr) := by
  have hnle : ¬ newCidr ≤ info.cidr := Nat.not_le.mpr hlt
  have hgen : generateSubnetList info newCidr =
      (List.range (min (2 ^ (newCidr - info.cidr)) 256)).map (fun i =>
        intToIPv4 (N + i * 2 ^ (32 - newCidr)) ++ "/" ++ Nat.repr newCidr) := by
    simp only [generateSubnetList, if_neg hnle, if_pos hv, hN]
  have hlen : (generateSubnetList info newCidr).length =
      min (2 ^ (newCidr - info.cidr)) 256 := by
    rw [hgen, List.length_map, List.length_range]
  have hbound : ∀ i < (generateSubnetList info newCidr).length,
      N + i * 2 ^ (32 - newCidr) < 2 ^ 32 := by
    intro i hi
    rw [hlen] at hi
    have hi2 : i < 2 ^ (newCidr - info.cidr) :=
      lt_of_lt_of_le hi (min_le_left _ _)
    have hstep : (i + 1) * 2 ^ (32 - newCidr) ≤
        2 ^ (newCidr - info.cidr) * 2 ^ (32 - newCidr) :=
      Nat.mul_le_mul_right _ (by omega)
    have hpow : 2 ^ (newCidr - info.cidr) * 2 ^ (32 - newCidr) =
        2 ^ (32 - info.cidr) := by
      rw [← pow_add]
      congr 1
      omega
    obtain ⟨q, hq⟩ := Nat.dvd_of_mod_eq_zero halign
    have hq2 : q < 2 ^ info.cidr := by
      by_contra hq2
      push_neg at hq2
      have : 2 ^ (32 - info.cidr) * 2 ^ info.cidr ≤ N := by
        rw [hq]
        exact Nat.mul_le_mul_left _ hq2
      rw [← pow_add] at this
      have h32 : 32 - info.cidr + info.cidr = 32 := by omega
      rw [h32] at this
      omega
    have hNle : N + 2 ^ (32 - info.cidr) ≤ 2 ^ 32 := by
      have hle2 : 2 ^ (32 - info.cidr) * (q + 1) ≤ 2 ^ (32 - info.cidr) * 2 ^ info.cidr :=
        Nat.mul_le_mul_left _ (by omega)
      rw [← pow_add] at hle2
      have h32 : 32 - info.cidr + info.cidr = 32 := by omega
      rw [h32] at hle2
      have hdistq : 2 ^ (32 - info.cidr) * (q + 1) =
          2 ^ (32 - info.cidr) * q + 2 ^ (32 - info.cidr) := by ring
      omega
    have hfit : N + (i + 1) * 2 ^ (32 - newCidr) ≤ 2 ^ 32 := by
      calc N + (i + 1) * 2 ^ (32 - newCidr)
          ≤ N + 2 ^ (32 - info.cidr) := by rw [← hpow]; omega
        _ ≤ 2 ^ 32 := hNle
    have hpos : 0 < 2 ^ (32 - newCidr) := Nat.pos_pow_of_pos _ (by omega)
    have hmul : (i + 1) * 2 ^ (32 - newCidr) =
        i * 2 ^ (32 - newCidr) + 2 ^ (32 - newCidr) := by ring
    omega
  refine ⟨hlen, ?_, hbound, ?_, rfl⟩
  · intro i hi
    rw [hgen, List.get?_map, List.get?_range (by rw [hlen] at hi; exact hi)]
    rfl
  · intro i j hij hj
    have hpos : 0 < 2 ^ (32 - newCidr) := Nat.pos_pow_of_pos _ (by omega)
    have hij2 := (Nat.mul_lt_mul_right hpos).mpr hij
    omega

/-- C3 witness: the theorem applied to 192.168.1.0/24 at /26, together with
the four concrete entries of the claim's scenario. -/
theorem c3_ipv4_enumeration_witness :
    (generateSubnetList
        { network := "192.168.1.0", totalHosts := 256, usableHosts := 254,
          cidr := 24, ipVersion := 4 } 26).length = min (2 ^ (26 - 24)) 256 ∧
    generateSubnetList
      { network := "192.168.1.0", totalHosts := 256, usableHosts := 254,
        cidr := 24, ipVersion := 4 } 26 =
      ["192.168.1.0/26", "192.168.1.64/26", "192.168.1.128/26", "192.168.1.192/26"] ∧
    totalSubnets 24 26 = 4 :=
  ⟨(c3_ipv4_enumeration
      { network := "192.168.1.0", totalHosts := 256, usableHosts := 254,
        cidr := 24, ipVersion := 4 } 26 3232235776 rfl (by decide) (by decide)
      (by decide) (by decide) (by decide)).1,
   by decide, by decide⟩

end SubnetCalc
